import Mathlib

/-!
# Verification of the datadog grok rule compiler (`parse_grok_rules.rs`)

A shallow embedding of `src/lib/datadog/grok/src/parse_grok_rules.rs`:
the token scanner, alias/cycle guard, match-function resolver, rule
compiler and batch orchestration, together with models of the external
collaborators (placeholder parser, builtin pattern library, date format
translator, filter construction, regex engine) that the source treats as
interfaces.

Strings are embedded as `List Char` so that structural induction over
pattern text is available.
-/

namespace Grok

/-- Strings are embedded as lists of characters. -/
abbrev Str := List Char

/-- Coerce a Lean string literal into the embedding's string type. -/
def str (s : String) : Str := s.data

/-! ## Model of the external regex engine

The source compiles the composed pattern with an external regex crate
(`fancy_regex` / `onig`).  Modelled from the spec: an engine that parses a
standard regex subset (literals, escapes, character classes, `.`, groups
`(...)`, `(?:...)`, `(?P<name>...)`, inline modifiers `(?m)`/`(?-m)`,
alternation `|`, postfix `*`, `+`, `?`) and matches the whole input; the
`\A`/`\z` anchors that `parse_pattern` always adds are recognized at the
ends of the pattern and give whole-input matching. -/

/-- Regular-expression abstract syntax produced by the modelled engine. -/
inductive RE where
  | fail : RE
  | eps : RE
  | ch (c : Char) : RE
  | anyc : RE
  | cls (neg : Bool) (items : List (Char × Char)) : RE
  | cat (r1 r2 : RE) : RE
  | alt (r1 r2 : RE) : RE
  | star (r : RE) : RE
deriving Repr, DecidableEq

namespace RE

/-- Does a character belong to a character class? -/
def clsMem (items : List (Char × Char)) (c : Char) : Bool :=
  items.any (fun p => decide (p.1 ≤ c) && decide (c ≤ p.2))

/-- Nullability: does the regex accept the empty string? -/
def nullable : RE → Bool
  | .fail => false
  | .eps => true
  | .ch _ => false
  | .anyc => false
  | .cls _ _ => false
  | .cat r1 r2 => nullable r1 && nullable r2
  | .alt r1 r2 => nullable r1 || nullable r2
  | .star _ => true

/-- Brzozowski derivative of a regex by one character. -/
def deriv : RE → Char → RE
  | .fail, _ => .fail
  | .eps, _ => .fail
  | .ch c, x => if x = c then .eps else .fail
  | .anyc, _ => .eps
  | .cls neg items, x => if clsMem items x ≠ neg then .eps else .fail
  | .cat r1 r2, x =>
    if nullable r1 then .alt (.cat (deriv r1 x) r2) (deriv r2 x)
    else .cat (deriv r1 x) r2
  | .alt r1 r2, x => .alt (deriv r1 x) (deriv r2 x)
  | .star r, x => .cat (deriv r x) (.star r)

/-- Whole-input match by iterated derivatives. -/
def rmatch (r : RE) (s : Str) : Bool :=
  nullable (s.foldl deriv r)

end RE

/-- The regex denoted by a literal string: the concatenation of its
characters. -/
def litRE : Str → RE
  | [] => .eps
  | c :: rest => .cat (.ch c) (litRE rest)

/-! ### Regex text parser (recursive descent, fuel-bounded) -/

/-- Characters that close a concatenation at the current nesting level. -/
def reStop (c : Char) : Bool := c = ')' || c = '|'

/-- Characters with a special meaning at atom position in the modelled
regex dialect. -/
def reMeta (c : Char) : Bool :=
  c = '\\' || c = '(' || c = ')' || c = '[' || c = ']' ||
  c = '*' || c = '+' || c = '?' || c = '.' || c = '|' || c = '^' || c = '$'

/-- Parse the items of a character class up to the closing `]`. -/
def parseClsItems : Str → List (Char × Char) → Option (List (Char × Char) × Str)
  | [], _ => none
  | ']' :: rest, acc => some (acc.reverse, rest)
  | '\\' :: c :: rest, acc => parseClsItems rest ((c, c) :: acc)
  | c :: '-' :: d :: rest, acc =>
    if d = ']' then parseClsItems ('-' :: d :: rest) ((c, c) :: acc)
    else parseClsItems rest ((c, d) :: acc)
  | c :: rest, acc => parseClsItems rest ((c, c) :: acc)

/-- Parse a character class after the opening `[`. -/
def parseCls (cs : Str) : Option (RE × Str) :=
  match cs with
  | '^' :: rest =>
    match parseClsItems rest [] with
    | some (items, rest') => some (.cls true items, rest')
    | none => none
  | _ =>
    match parseClsItems cs [] with
    | some (items, rest') => some (.cls false items, rest')
    | none => none

/-- Skip an inline modifier body (e.g. `m`, `-m`) up to the closing `)`. -/
def skipModifier : Str → Option Str
  | [] => none
  | ')' :: rest => some rest
  | c :: rest => if c = 'm' || c = '-' || c = 'i' || c = 's' then skipModifier rest else none

/-- Skip a capture-group name up to the closing `>`. -/
def skipGroupName : Str → Option Str
  | [] => none
  | '>' :: rest => some rest
  | _ :: rest => skipGroupName rest

/-- Apply a run of postfix operators `*`, `+`, `?` to a parsed atom. -/
def applyRep (r : RE) (cs : Str) : RE × Str :=
  match cs with
  | [] => (r, [])
  | c :: rest =>
    if c = '*' then applyRep (.star r) rest
    else if c = '+' then applyRep (.cat r (.star r)) rest
    else if c = '?' then applyRep (.alt r .eps) rest
    else (r, c :: rest)

mutual

/-- Parse an alternation (lowest precedence). -/
def parseAlt (fuel : Nat) (cs : Str) : Option (RE × Str) :=
  match fuel with
  | 0 => none
  | n + 1 =>
    match parseCat n cs with
    | some (r, rest) =>
      match rest with
      | '|' :: rest' =>
        match parseAlt n rest' with
        | some (r2, rest'') => some (.alt r r2, rest'')
        | none => none
      | _ => some (r, rest)
    | none => none
termination_by structural fuel

/-- Parse a concatenation; stops at `)`, `|` or end of input. -/
def parseCat (fuel : Nat) (cs : Str) : Option (RE × Str) :=
  match cs with
  | [] => some (.eps, [])
  | c :: _ =>
    if reStop c then some (.eps, cs)
    else
      match fuel with
      | 0 => none
      | n + 1 =>
        match parseRep n cs with
        | some (r, rest) =>
          match parseCat n rest with
          | some (r2, rest') => some (.cat r r2, rest')
          | none => none
        | none => none
termination_by structural fuel

/-- Parse an atom followed by any postfix operators `*`, `+`, `?`. -/
def parseRep (fuel : Nat) (cs : Str) : Option (RE × Str) :=
  match fuel with
  | 0 => none
  | n + 1 =>
    match parseAtom n cs with
    | some (r, rest) => some (applyRep r rest)
    | none => none
termination_by structural fuel

/-- Parse a single atom. -/
def parseAtom (fuel : Nat) (cs : Str) : Option (RE × Str) :=
  match fuel with
  | 0 => none
  | n + 1 =>
    match cs with
    | [] => none
    | c :: rest =>
      if c = '(' then
        match rest with
        | '?' :: ':' :: rest' => parseGroup n rest'
        | '?' :: 'P' :: '<' :: rest' =>
          match skipGroupName rest' with
          | some rest'' => parseGroup n rest''
          | none => none
        | '?' :: rest' =>
          match skipModifier rest' with
          | some rest'' => some (.eps, rest'')
          | none => none
        | _ => parseGroup n rest
      else if c = '[' then
        match parseCls rest with
        | some (r, rest') => some (r, rest')
        | none => none
      else if c = '\\' then
        match rest with
        | [] => none
        | c2 :: rest' => if c2 = 'A' || c2 = 'z' then none else some (.ch c2, rest')
      else if c = '.' then some (.anyc, rest)
      else if reMeta c then none
      else some (.ch c, rest)
termination_by structural fuel

/-- Parse a parenthesized group body and its closing `)`. -/
def parseGroup (fuel : Nat) (cs : Str) : Option (RE × Str) :=
  match fuel with
  | 0 => none
  | n + 1 =>
    match parseAlt n cs with
    | some (r, ')' :: rest) => some (r, rest)
    | _ => none
termination_by structural fuel

end

/-- Total fuel sufficient for any input to the regex parser. -/
def reFuel (cs : Str) : Nat := 4 * cs.length + 4

/-- Parse a complete regex text; fails on trailing input. -/
def regexParse (cs : Str) : Option RE :=
  match parseAlt (reFuel cs) cs with
  | some (r, []) => some r
  | _ => none

/-- Modelled from the spec: the external regex engine's compile entry
point.  `parse_pattern` always brackets the composed pattern with the
`\A`/`\z` anchors; the model recognizes and strips them (whole-input
matching is then `RE.rmatch`) and parses the remaining body. -/
def RegexNew (cs : Str) : Except Str RE :=
  let inner := cs.drop 2
  let body :=
    if cs.take 2 = ['\\', 'A'] ∧ 2 ≤ inner.length ∧
        inner.drop (inner.length - 2) = ['\\', 'z'] then
      inner.take (inner.length - 2)
    else cs
  match regexParse body with
  | some r => Except.ok r
  | none => Except.error (str "invalid regex")

/-! ## AST of a parsed placeholder

Modelled from the spec: the structured node produced by the Placeholder
Parser collaborator for one `%{...}` span — matcher name, ordered argument
list (quoted-string / other literal arguments), optional destination
(field path, optional filter spec).  The field path (`LookupBuf`) is kept
as raw path text. -/

/-- A literal argument value of a match function or filter. -/
inductive Value where
  | bytes (s : Str) : Value
  | integer (i : Int) : Value
  | boolean (b : Bool) : Value
deriving Repr, DecidableEq

/-- A function argument (the spec's arguments are literals). -/
inductive FunctionArgument where
  | arg (v : Value) : FunctionArgument
deriving Repr, DecidableEq

/-- A matcher or filter invocation: name and optional argument list. -/
structure Function where
  name : Str
  args : Option (List FunctionArgument)
deriving Repr, DecidableEq

/-- A capture destination: field path and optional declared filter. -/
structure Destination where
  path : Str
  filter_fn : Option Function
deriving Repr, DecidableEq

/-- One parsed `%{...}` placeholder. -/
structure GrokPattern where
  match_fn : Function
  destination : Option Destination
deriving Repr, DecidableEq

/-- The compiler's error kinds (from `parse_grok_rules.rs`). -/
inductive Error where
  | InvalidGrokExpression (expr : Str) (cause : Str) : Error
  | InvalidFunctionArguments (func : Str) : Error
  | UnknownFilter (name : Str) : Error
  | CircularDependencyInAliasDefinition (name : Str) : Error
deriving Repr, DecidableEq

/-! ## Date Format Translator (collaborator)

Modelled from the spec: translates a user date-format string into a
matching regex (capturing a timezone component when the format includes
one), into a parser specification, and validates timezone names. -/

/-- Result of translating a date format to a regex. -/
structure TimeRegexResult where
  regex : Str
  tz_captured : Bool
  with_tz : Bool
deriving Repr, DecidableEq

/-- Modelled from the spec: each date-format letter contributes a digit
class, a `Z` timezone component contributes an offset pattern, everything
else is matched literally. -/
def dateFmtRegex (format : Str) : Str :=
  format.foldr
    (fun c acc =>
      (if (str "yMdHhmsS").contains c then str "[0-9]"
       else if c = 'Z' then str "[+-][0-9]+"
       else if reMeta c then ['\\', c]
       else [c]) ++ acc)
    []

/-- Modelled from the spec: `date::time_format_to_regex` — translate a
format into a regex; the format is timezone-aware iff it contains `Z`,
and the timezone is captured only when requested. -/
def time_format_to_regex (format : Str) (captureTz : Bool) : Except Str TimeRegexResult :=
  let hasZ := format.contains 'Z'
  Except.ok ⟨dateFmtRegex format, captureTz && hasZ, hasZ⟩

/-- Modelled from the spec: `date::convert_time_format` — translate a
format into a parser specification (kept abstract as the format text). -/
def convert_time_format (format : Str) : Except Str Str :=
  Except.ok format

/-- Modelled from the spec: `date::parse_timezone` — validate a timezone
name against the set of recognized names (a representative table). -/
def parse_timezone (tz : Str) : Except Str Unit :=
  if tz ∈ [str "UTC", str "GMT", str "Z", str "America/New_York",
           str "Europe/Paris", str "Asia/Tokyo"] then
    Except.ok ()
  else Except.error (str "unknown timezone")

/-- Modelled from the spec: the second regex crate used to compile the
timezone-detection regex (no anchoring involved). -/
def regexCrateNew (cs : Str) : Except Str RE :=
  match regexParse cs with
  | some r => Except.ok r
  | none => Except.error (str "invalid regex")

/-! ## Filters -/

/-- The payload of a date-parse filter (fields as used by
`resolves_match_function`). -/
structure DateFilter where
  original_format : Str
  strp_format : Str
  regex_with_tz : Option RE
  target_tz : Option Str
  tz_aware : Bool
deriving Repr, DecidableEq

/-- Post-processing filters.  The implicit coercion filters are the ones
named by `resolves_match_function`; `nullIf` and `scale` are
representative explicit filters (modelled from the spec's filter
examples). -/
inductive GrokFilter where
  | integer : GrokFilter
  | integerExt : GrokFilter
  | number : GrokFilter
  | numberExt : GrokFilter
  | date (d : DateFilter) : GrokFilter
  | nullIf (s : Str) : GrokFilter
  | scale (factor : Int) : GrokFilter
deriving Repr, DecidableEq

/-- Modelled from the spec: filter construction (`GrokFilter::try_from`) —
a known filter name with well-formed arguments yields a filter object, a
known name with bad arguments is `InvalidFunctionArguments`, an unknown
name is `UnknownFilter`. -/
def GrokFilter.tryFrom (f : Function) : Except Error GrokFilter :=
  if f.name = str "nullIf" then
    match f.args with
    | some [.arg (.bytes s)] => Except.ok (.nullIf s)
    | _ => Except.error (.InvalidFunctionArguments f.name)
  else if f.name = str "scale" then
    match f.args with
    | some [.arg (.integer n)] => Except.ok (.scale n)
    | _ => Except.error (.InvalidFunctionArguments f.name)
  else Except.error (.UnknownFilter f.name)

/-! ## Builtin pattern library and map helpers -/

/-- First-match association-list lookup (the map operations of the
source's `HashMap`/`BTreeMap` keyed by strings). -/
def alookup {α : Type} (m : List (Str × α)) (k : Str) : Option α :=
  match m.find? (fun p => decide (p.1 = k)) with
  | some p => some p.2
  | none => none

/-- Modelled from the spec: the builtin pattern library (`PATTERNS` /
`initialize_grok`), a representative immutable name-to-definition table;
the coercion matchers' backing patterns and two generic patterns. -/
def initGrokPatterns : List (Str × Str) :=
  [(str "integerStr", str "[+-]?[0-9]+"),
   (str "integerExtStr", str "[+-]?[0-9]+(?:e[+-]?[0-9]+)?"),
   (str "numberStr", str "[+-]?[0-9]+(?:\\.[0-9]+)?"),
   (str "numberExtStr", str "[+-]?[0-9]+(?:\\.[0-9]+)?(?:e[+-]?[0-9]+)?"),
   (str "word", str "[a-zA-Z0-9_]+"),
   (str "notSpace", str "[^ ]+")]

/-- A grok field: lookup path plus ordered post-processing filters. -/
structure GrokField where
  lookup : Str
  filters : List GrokFilter
deriving Repr, DecidableEq

/-- Insert-or-replace into the fields map (`HashMap::insert`). -/
def insertField (m : List (Str × GrokField)) (k : Str) (v : GrokField) :
    List (Str × GrokField) :=
  match m with
  | [] => [(k, v)]
  | (k', v') :: rest =>
    if k' = k then (k, v) :: rest else (k', v') :: insertField rest k v

/-- Modify the entry at a key if present (`Entry::and_modify`). -/
def modifyField (m : List (Str × GrokField)) (k : Str)
    (f : GrokField → GrokField) : List (Str × GrokField) :=
  match m with
  | [] => []
  | (k', v') :: rest =>
    if k' = k then (k', f v') :: rest else (k', v') :: modifyField rest k f

/-! ## Placeholder Parser (collaborator)

Modelled from the spec: converts one `%{...}` span into a structured
node following the surface grammar `%{MATCHER[:PATH[:FILTER(args...)]]}`,
where quoted string arguments may contain escaped quotes. -/

/-- Split at top-level occurrences of a separator, ignoring separators
inside double-quoted substrings (with `\"` escapes) and inside
parentheses. -/
def splitTopGo (sep : Char) : Str → Bool → Nat → Str → List Str
  | [], _, _, acc => [acc.reverse]
  | c :: rest, true, d, acc =>
    if c = '\\' then
      match rest with
      | c2 :: rest2 => splitTopGo sep rest2 true d (c2 :: c :: acc)
      | [] => [(c :: acc).reverse]
    else if c = '"' then splitTopGo sep rest false d (c :: acc)
    else splitTopGo sep rest true d (c :: acc)
  | c :: rest, false, d, acc =>
    if c = '"' then splitTopGo sep rest true d (c :: acc)
    else if c = '(' then splitTopGo sep rest false (d + 1) (c :: acc)
    else if c = ')' then splitTopGo sep rest false (d - 1) (c :: acc)
    else if c = sep ∧ d = 0 then acc.reverse :: splitTopGo sep rest false 0 []
    else splitTopGo sep rest false d (c :: acc)

/-- Top-level split of a placeholder section. -/
def splitTop (sep : Char) (cs : Str) : List Str := splitTopGo sep cs false 0 []

/-- Remove backslash escapes inside a quoted string argument. -/
def unescape : Str → Str
  | [] => []
  | '\\' :: c :: rest => c :: unescape rest
  | c :: rest => c :: unescape rest

/-- Is this a decimal integer literal (with optional sign)? -/
def isIntLit (cs : Str) : Bool :=
  match cs with
  | '-' :: rest => !rest.isEmpty && rest.all (fun c => c.isDigit)
  | _ => !cs.isEmpty && cs.all (fun c => c.isDigit)

/-- Decimal digits to a natural number. -/
def digitsToNat (cs : Str) : Nat :=
  cs.foldl (fun a c => a * 10 + (c.toNat - '0'.toNat)) 0

/-- Parse one literal argument: quoted string, integer or boolean. -/
def parseValue (cs : Str) : Except Str Value :=
  match cs with
  | '"' :: rest =>
    if rest.getLast? = some '"' ∧ rest.length ≥ 1 then
      Except.ok (.bytes (unescape rest.dropLast))
    else Except.error (str "invalid string argument")
  | _ =>
    if isIntLit cs then
      match cs with
      | '-' :: rest => Except.ok (.integer (-(digitsToNat rest : Int)))
      | _ => Except.ok (.integer (digitsToNat cs))
    else if cs = str "true" then Except.ok (.boolean true)
    else if cs = str "false" then Except.ok (.boolean false)
    else Except.error (str "invalid argument")

/-- Parse a function section `name` or `name(arg, ...)`. -/
def parseFunc (cs : Str) : Except Str Function :=
  let name := cs.takeWhile (fun c => c ≠ '(')
  match cs.dropWhile (fun c => c ≠ '(') with
  | [] => Except.ok ⟨name, none⟩
  | '(' :: inner =>
    if inner.getLast? = some ')' then
      let argsStr := inner.dropLast
      if argsStr.isEmpty then Except.ok ⟨name, some []⟩
      else
        match (splitTop ',' argsStr).mapM parseValue with
        | Except.ok vs => Except.ok ⟨name, some (vs.map .arg)⟩
        | Except.error e => Except.error e
    else Except.error (str "unterminated argument list")
  | _ => Except.error (str "malformed function")

/-- Modelled from the spec: the Placeholder Parser (`parse_grok_pattern`),
turning one `%{...}` span into matcher, optional destination path and
optional filter spec. -/
def parse_grok_pattern (cs : Str) : Except Str GrokPattern :=
  match cs with
  | '%' :: '{' :: rest =>
    if rest.getLast? = some '}' then
      match splitTop ':' rest.dropLast with
      | [m] =>
        match parseFunc m with
        | Except.ok f => Except.ok ⟨f, none⟩
        | Except.error e => Except.error e
      | [m, p] =>
        match parseFunc m with
        | Except.ok f => Except.ok ⟨f, some ⟨p, none⟩⟩
        | Except.error e => Except.error e
      | [m, p, fl] =>
        match parseFunc m, parseFunc fl with
        | Except.ok f, Except.ok g => Except.ok ⟨f, some ⟨p, some g⟩⟩
        | Except.error e, _ => Except.error e
        | _, Except.error e => Except.error e
      | _ => Except.error (str "invalid placeholder")
    else Except.error (str "invalid placeholder")
  | _ => Except.error (str "invalid placeholder")

/-! ## Token Scanner

A direct transliteration of the scanning loop of `parse_grok_rule`: the
`onig` lexer regex `%\{(?:[^"\}]|(?<!\\)"(?:\\"|[^"])*(?<!\\)")+\}` with
`find_iter`, yielding alternating literal and placeholder spans. -/

/-- A span of the rule text. -/
inductive Tok where
  | lit (s : Str) : Tok
  | ph (s : Str) : Tok
deriving Repr, DecidableEq

/-- Scan a double-quoted substring inside a placeholder body:
`(?<!\\)"(?:\\"|[^"])*(?<!\\)"`.  Returns the consumed characters
(reversed, appended to `acc`) and the rest. -/
def scanQuoted (fuel : Nat) (cs : Str) (acc : Str) : Option (Str × Str) :=
  match fuel, cs with
  | 0, _ => none
  | _, [] => none
  | _ + 1, '"' :: rest => some ('"' :: acc, rest)
  | f + 1, '\\' :: '"' :: rest => scanQuoted f rest ('"' :: '\\' :: acc)
  | f + 1, c :: rest => scanQuoted f rest (c :: acc)

/-- Scan a placeholder body after `%{`: one or more of a non-quote
non-brace character or a quoted substring, then the closing `}`.
Returns the body and the rest after the brace. -/
def phBody (fuel : Nat) (cs : Str) (acc : Str) : Option (Str × Str) :=
  match fuel, cs with
  | 0, _ => none
  | _, [] => none
  | _ + 1, '}' :: rest => if acc.isEmpty then none else some (acc.reverse, rest)
  | f + 1, '"' :: rest =>
    if acc.head? = some '\\' then none
    else
      match scanQuoted f rest ['"'] with
      | some (q, rest') => phBody f rest' (q ++ acc)
      | none => none
  | f + 1, c :: rest => phBody f rest (c :: acc)

/-- The scanning loop: leftmost placeholder matches, everything else
accumulated as literal text. -/
def scanGo (fuel : Nat) (cs : Str) (acc : Str) : List Tok :=
  match fuel, cs with
  | 0, _ => if (acc.reverse ++ cs).isEmpty then [] else [.lit (acc.reverse ++ cs)]
  | _, [] => if acc.isEmpty then [] else [.lit acc.reverse]
  | f + 1, c :: rest =>
    if c = '%' then
      match rest with
      | '{' :: rest2 =>
        match phBody (rest2.length + 1) rest2 [] with
        | some (body, rest') =>
          (if acc.isEmpty then [] else [.lit acc.reverse]) ++
            (.ph ('%' :: '{' :: (body ++ ['}'])) :: scanGo f rest' [])
        | none => scanGo f ('{' :: rest2) ('%' :: acc)
      | _ => scanGo f rest (c :: acc)
    else scanGo f rest (c :: acc)

/-- Tokenize a raw rule string. -/
def scanGrok (cs : Str) : List Tok := scanGo (cs.length + 1) cs []

/-! ## Rule Compiler

The embedding of `parse_grok_rules.rs` proper.  Recursion through alias
expansion is fuel-bounded: `none` means the (externally unbounded)
recursion did not finish within the given depth budget; `some` carries
the source's `Result`. -/

/-- The compiled output for one top-level pattern. -/
structure GrokRule where
  pattern : RE
  fields : List (Str × GrokField)
deriving Repr, DecidableEq

/-- The context used to parse grok rules. -/
structure GrokRuleParseContext where
  regex : Str
  fields : List (Str × GrokField)
  aliases : List (Str × Str)
  alias_stack : List Str
  grok : List (Str × Str)
deriving Repr, DecidableEq

namespace GrokRuleParseContext

/-- Appends to the rule's regular expression. -/
def append_regex (ctx : GrokRuleParseContext) (r : Str) : GrokRuleParseContext :=
  { ctx with regex := ctx.regex ++ r }

/-- Registers a given grok field under a given grok name. -/
def register_grok_field (ctx : GrokRuleParseContext) (grok_name : Str)
    (field : GrokField) : GrokRuleParseContext :=
  { ctx with fields := insertField ctx.fields grok_name field }

/-- Adds a filter to the field associated with this grok name, at the
front of its filter chain (`filters.insert(0, filter)`). -/
def register_filter (ctx : GrokRuleParseContext) (grok_name : Str)
    (filter : GrokFilter) : GrokRuleParseContext :=
  { ctx with fields := (modifyField ctx.fields grok_name
      (fun v => { v with filters := filter :: v.filters })) }

/-- A fresh context for one top-level pattern. -/
def new (aliases : List (Str × Str)) : GrokRuleParseContext :=
  ⟨[], [], aliases, [], initGrokPatterns⟩

/-- Generates a grok-safe capture name (`grok0`, `grok1`, ...). -/
def generate_grok_compliant_name (ctx : GrokRuleParseContext) : Str :=
  str "grok" ++ (toString ctx.fields.length).data

end GrokRuleParseContext

mutual

/-- Parses a given rule (a pattern or an alias definition): scans it into
literal and placeholder spans, appends literals verbatim and resolves
placeholders. -/
def parse_grok_rule (fuel : Nat) (rule : Str) (ctx : GrokRuleParseContext) :
    Option (Except Error GrokRuleParseContext) :=
  match fuel with
  | 0 => none
  | n + 1 => parse_tokens n (scanGrok rule) ctx
termination_by structural fuel

/-- The scanning loop body of `parse_grok_rule`: literal spans are
appended to the regex, placeholder spans are parsed and resolved. -/
def parse_tokens (fuel : Nat) (toks : List Tok) (ctx : GrokRuleParseContext) :
    Option (Except Error GrokRuleParseContext) :=
  match toks, fuel with
  | [], _ => some (Except.ok ctx)
  | _ :: _, 0 => none
  | .lit l :: rest, n + 1 => parse_tokens n rest (ctx.append_regex l)
  | .ph span :: rest, n + 1 =>
    match parse_grok_pattern span with
    | Except.error e => some (Except.error (.InvalidGrokExpression span e))
    | Except.ok pat =>
      match resolve_grok_pattern n pat ctx with
      | some (Except.ok ctx') => parse_tokens n rest ctx'
      | r => r
termination_by structural fuel

/-- Converts one placeholder into regex text and field registrations:
strips filters, replaces alias references with their definitions and
match functions with regex groups. -/
def resolve_grok_pattern (fuel : Nat) (pattern : GrokPattern)
    (ctx : GrokRuleParseContext) : Option (Except Error GrokRuleParseContext) :=
  match fuel with
  | 0 => none
  | n + 1 =>
  let gaName := ctx.generate_grok_compliant_name
  let grok_alias := pattern.destination.map (fun _ => gaName)
  let registered : Except Error GrokRuleParseContext :=
    match pattern.destination with
    | some ⟨path, some filter⟩ =>
      match GrokFilter.tryFrom filter with
      | Except.ok gf => Except.ok (ctx.register_grok_field gaName ⟨path, [gf]⟩)
      | Except.error e => Except.error e
    | some ⟨path, none⟩ => Except.ok (ctx.register_grok_field gaName ⟨path, []⟩)
    | none => Except.ok ctx
  match registered with
  | Except.error e => some (Except.error e)
  | Except.ok ctx =>
    let match_name := pattern.match_fn.name
    match alookup ctx.aliases match_name with
    | some alias_def =>
      match grok_alias with
      | some ga =>
        let ctx := ((ctx.append_regex (str "(?P<")).append_regex ga).append_regex (str ">")
        match parse_alias n match_name alias_def ctx with
        | some (Except.ok ctx') => some (Except.ok (ctx'.append_regex (str ")")))
        | r => r
      | none => parse_alias n match_name alias_def ctx
    | none =>
      if match_name = str "regex" ∨ match_name = str "date" ∨ match_name = str "boolean" then
        let ctx :=
          match grok_alias with
          | some ga => ((ctx.append_regex (str "(?P<")).append_regex ga).append_regex (str ">")
          | none => ctx.append_regex (str "(?:")
        match resolves_match_function n grok_alias pattern ctx with
        | some (Except.ok ctx') => some (Except.ok (ctx'.append_regex (str ")")))
        | r => r
      else
        let ctx :=
          match grok_alias with
          | some ga => (ctx.append_regex (str "(?P<")).append_regex ga
          | none => ctx.append_regex (str "(?:")
        let ctx := ctx.append_regex (str ">")
        match resolves_match_function n grok_alias pattern ctx with
        | some (Except.ok ctx') => some (Except.ok (ctx'.append_regex (str ")")))
        | r => r
termination_by structural fuel

/-- Expands an alias definition under the cycle guard: a name already on
the expansion stack fails with `CircularDependencyInAliasDefinition`
naming the first stack entry. -/
def parse_alias (fuel : Nat) (name : Str) (definition : Str)
    (ctx : GrokRuleParseContext) : Option (Except Error GrokRuleParseContext) :=
  match fuel with
  | 0 => none
  | n + 1 =>
    if ctx.alias_stack.any (fun a => decide (a = name)) then
      some (Except.error (.CircularDependencyInAliasDefinition
        (ctx.alias_stack.headD name)))
    else
      let ctx := { ctx with alias_stack := ctx.alias_stack ++ [name] }
      match parse_grok_rule n definition ctx with
      | some (Except.ok ctx') =>
        some (Except.ok { ctx' with alias_stack := ctx'.alias_stack.dropLast })
      | r => r
termination_by structural fuel

/-- Processes a match function: contributes regex text and, for the
coercion matchers and `date`, registers an implicit filter on the field
bound to `grok_alias`. -/
def resolves_match_function (fuel : Nat) (grok_alias : Option Str)
    (pattern : GrokPattern) (ctx : GrokRuleParseContext) :
    Option (Except Error GrokRuleParseContext) :=
  match fuel with
  | 0 => none
  | n + 1 =>
  let match_fn := pattern.match_fn
  if match_fn.name = str "regex" then
    match match_fn.args with
    | some (.arg (.bytes b) :: _) => some (Except.ok (ctx.append_regex b))
    | some (_ :: _) => some (Except.error (.InvalidFunctionArguments match_fn.name))
    | some [] => some (Except.error (.InvalidFunctionArguments match_fn.name))
    | none => some (Except.error (.InvalidFunctionArguments match_fn.name))
  else if match_fn.name = str "integer" then
    let ctx := match grok_alias with
      | some ga => ctx.register_filter ga .integer
      | none => ctx
    append_grok_pattern n (str "integerStr") ctx
  else if match_fn.name = str "integerExt" then
    let ctx := match grok_alias with
      | some ga => ctx.register_filter ga .integerExt
      | none => ctx
    append_grok_pattern n (str "integerExtStr") ctx
  else if match_fn.name = str "number" then
    let ctx := match grok_alias with
      | some ga => ctx.register_filter ga .number
      | none => ctx
    append_grok_pattern n (str "numberStr") ctx
  else if match_fn.name = str "numberExt" then
    let ctx := match grok_alias with
      | some ga => ctx.register_filter ga .numberExt
      | none => ctx
    append_grok_pattern n (str "numberExtStr") ctx
  else if match_fn.name = str "date" then
    match match_fn.args with
    | some args =>
      if args.length = 0 ∨ args.length > 2 then
        some (Except.error (.InvalidFunctionArguments match_fn.name))
      else
        match args with
        | .arg (.bytes format) :: restArgs =>
          match time_format_to_regex format true with
          | Except.error _ => some (Except.error (.InvalidFunctionArguments match_fn.name))
          | Except.ok result =>
            let regextOptE : Except Error (Option RE) :=
              if result.tz_captured then
                match regexCrateNew result.regex with
                | Except.ok r => Except.ok (some r)
                | Except.error _ => Except.error (.InvalidFunctionArguments match_fn.name)
              else Except.ok none
            match regextOptE with
            | Except.error e => some (Except.error e)
            | Except.ok regext_opt =>
              match convert_time_format format with
              | Except.error _ => some (Except.error (.InvalidFunctionArguments match_fn.name))
              | Except.ok strp_format =>
                -- `args.len() == 2` with `args[1]` a string: here `restArgs`
                -- is `args[1..]`, so a non-string or absent second argument
                -- leaves `target_tz` as `none`.
                let targetE : Except Error (Option Str) :=
                  match restArgs with
                  | .arg (.bytes tz) :: _ =>
                    match parse_timezone tz with
                    | Except.ok _ => Except.ok (some tz)
                    | Except.error _ => Except.error (.InvalidFunctionArguments match_fn.name)
                  | _ => Except.ok none
                match targetE with
                | Except.error e => some (Except.error e)
                | Except.ok target_tz =>
                  let filter := GrokFilter.date
                    ⟨format, strp_format, regext_opt, target_tz, result.with_tz⟩
                  match time_format_to_regex format false with
                  | Except.error _ =>
                    some (Except.error (.InvalidFunctionArguments match_fn.name))
                  | Except.ok result2 =>
                    let ctx := match grok_alias with
                      | some ga => ctx.register_filter ga filter
                      | none => ctx
                    some (Except.ok (ctx.append_regex result2.regex))
        | _ => some (Except.error (.InvalidFunctionArguments match_fn.name))
    | none => some (Except.error (.InvalidFunctionArguments match_fn.name))
  else
    append_grok_pattern n match_fn.name ctx
termination_by structural fuel

/-- Appends a named builtin pattern: a known name is recursively
compiled, an unknown name degrades to the literal fragment `TODO`. -/
def append_grok_pattern (fuel : Nat) (name : Str) (ctx : GrokRuleParseContext) :
    Option (Except Error GrokRuleParseContext) :=
  match fuel with
  | 0 => none
  | n + 1 =>
    match alookup ctx.grok name with
    | some rule_def => parse_grok_rule n rule_def ctx
    | none => some (Except.ok (ctx.append_regex (str "TODO")))
termination_by structural fuel

end

/-- Non-overlapping left-to-right substring replacement
(`str::replace`). -/
def replaceAllGo (fuel : Nat) (pat repl cs : Str) : Str :=
  match fuel with
  | 0 => cs
  | n + 1 =>
    match cs with
    | [] => []
    | c :: rest =>
      if ¬ pat.isEmpty ∧ pat.isPrefixOf cs then
        repl ++ replaceAllGo n pat repl (cs.drop pat.length)
      else c :: replaceAllGo n pat repl rest

/-- Replace every occurrence of `pat` by `repl` in `cs`. -/
def replaceAll (cs pat repl : Str) : Str := replaceAllGo (cs.length + 1) pat repl cs

/-- Compiles one pattern definition: parse the rule, anchor the composed
regex with `\A`/`\z`, translate the dot-matches-newline modifier between
dialects, and compile with the regex engine. -/
def parse_pattern (fuel : Nat) (patternStr : Str) (ctx : GrokRuleParseContext) :
    Option (Except Error GrokRule) :=
  match parse_grok_rule fuel patternStr ctx with
  | none => none
  | some (Except.error e) => some (Except.error e)
  | some (Except.ok ctx') =>
    let pat0 := str "\\A" ++ ctx'.regex ++ str "\\z"
    let pat1 := replaceAll (replaceAll pat0 (str "(?s)") (str "(?m)"))
      (str "(?-s)") (str "(?-m)")
    match RegexNew pat1 with
    | Except.ok re => some (Except.ok ⟨re, ctx'.fields⟩)
    | Except.error e => some (Except.error (.InvalidGrokExpression pat1 e))

/-- The fixed sentinel pattern substituted for a failed rule. -/
def sentinelStr : Str := str "failed pattern replacement"

/-- One slot of the batch: compile the pattern with a fresh context; on
any error compile the sentinel instead (its own failure — the source's
`expect` panic — is surfaced as an error result). -/
def compileOne (fuel : Nat) (aliases : List (Str × Str)) (r : Str) :
    Option (Except Error GrokRule) :=
  match parse_pattern fuel r (.new aliases) with
  | some (Except.ok rule) => some (Except.ok rule)
  | some (Except.error _) =>
    match parse_pattern fuel sentinelStr (.new aliases) with
    | some (Except.ok rule) => some (Except.ok rule)
    | some (Except.error e) => some (Except.error e)
    | none => none
  | none => none

/-- Collect the per-slot results of the batch. -/
def collectRules (fuel : Nat) (aliases : List (Str × Str)) :
    List Str → Option (Except Error (List GrokRule))
  | [] => some (Except.ok [])
  | p :: ps =>
    match compileOne fuel aliases p with
    | some (Except.ok r) =>
      match collectRules fuel aliases ps with
      | some (Except.ok rs) => some (Except.ok (r :: rs))
      | some (Except.error e) => some (Except.error e)
      | none => none
    | some (Except.error e) => some (Except.error e)
    | none => none

/-- Parses DD grok rules: discard empty patterns, compile the rest in
order, substituting the sentinel for any pattern that fails. -/
def parse_grok_rules (fuel : Nat) (patterns : List Str)
    (aliases : List (Str × Str)) : Option (Except Error (List GrokRule)) :=
  collectRules fuel aliases (patterns.filter (fun r => !r.isEmpty))

/-! ## Claims -/

/-- C8, counterexample: the claim states that `regex` with more than one
argument fails with `InvalidFunctionArguments`; in the code a second
argument is ignored when the first is a string — resolution succeeds and
appends the first argument. -/
theorem regex_matcher_two_args_accepted :
    resolves_match_function 1 none
      ⟨⟨str "regex", some [.arg (.bytes (str "a")), .arg (.bytes (str "b"))]⟩, none⟩
      (.new []) = some (Except.ok ⟨str "a", [], [], [], initGrokPatterns⟩) := rfl

/-- C8 (amended): the `regex` matcher requires a string first argument,
which is inserted verbatim; zero arguments, an absent argument list, or a
non-string first argument fail with `InvalidFunctionArguments`; arguments
beyond the first are ignored. -/
theorem regex_matcher_argument_contract (n : Nat) (ga : Option Str)
    (dest : Option Destination) (ctx : GrokRuleParseContext) :
    (∀ b rest, resolves_match_function (n + 1) ga
        ⟨⟨str "regex", some (.arg (.bytes b) :: rest)⟩, dest⟩ ctx =
        some (Except.ok (ctx.append_regex b))) ∧
    (resolves_match_function (n + 1) ga ⟨⟨str "regex", some []⟩, dest⟩ ctx =
        some (Except.error (.InvalidFunctionArguments (str "regex")))) ∧
    (resolves_match_function (n + 1) ga ⟨⟨str "regex", none⟩, dest⟩ ctx =
        some (Except.error (.InvalidFunctionArguments (str "regex")))) ∧
    (∀ v rest, (∀ s, v ≠ Value.bytes s) →
        resolves_match_function (n + 1) ga
          ⟨⟨str "regex", some (.arg v :: rest)⟩, dest⟩ ctx =
        some (Except.error (.InvalidFunctionArguments (str "regex")))) := by
  refine ⟨fun b rest => rfl, rfl, rfl, fun v rest hv => ?_⟩
  cases v with
  | bytes s => exact absurd rfl (hv s)
  | integer i => rfl
  | boolean b => rfl

/-- C8 witness: a non-string first argument is rejected. -/
theorem regex_matcher_argument_contract_witness :
    resolves_match_function 1 none
      ⟨⟨str "regex", some [.arg (.integer 7)]⟩, none⟩ (.new []) =
      some (Except.error (.InvalidFunctionArguments (str "regex"))) :=
  (regex_matcher_argument_contract 0 none none (.new [])).2.2.2 (.integer 7) []
    (fun _ h => Value.noConfusion h)

/-- C9, counterexample: the claim states that the bare placeholder
compiles to a rule with a field carrying the date filter; the placeholder
has no destination, so no field is registered at all — the compiled
rule's field map is empty. -/
theorem date_placeholder_no_destination_no_field :
    (parse_pattern 10 (str "%\x7bdate(\"yyyy-MM-dd\",\"America/New_York\")\x7d")
        (.new [])).map (Except.map GrokRule.fields) = some (Except.ok []) := rfl

/-- C9 (amended): `%{date("yyyy-MM-dd","America/New_York")}` compiles
successfully but, having no destination, yields no field; the variant
with a destination `:d` yields a field whose date filter carries target
timezone `America/New_York` and original format `yyyy-MM-dd`; an
unrecognized timezone fails with `InvalidFunctionArguments`. -/
theorem date_placeholder_timezone_behavior :
    ((parse_pattern 10 (str "%\x7bdate(\"yyyy-MM-dd\",\"America/New_York\")\x7d")
        (.new [])).map (Except.map GrokRule.fields) = some (Except.ok [])) ∧
    ((parse_pattern 10 (str "%\x7bdate(\"yyyy-MM-dd\",\"America/New_York\"):d\x7d")
        (.new [])).map (Except.map (fun r => alookup r.fields (str "grok0"))) =
      some (Except.ok (some ⟨str "d",
        [GrokFilter.date ⟨str "yyyy-MM-dd", str "yyyy-MM-dd", none,
          some (str "America/New_York"), false⟩]⟩))) ∧
    (parse_pattern 10 (str "%\x7bdate(\"yyyy-MM-dd\",\"Not/AZone\")\x7d") (.new []) =
      some (Except.error (.InvalidFunctionArguments (str "date")))) :=
  ⟨rfl, rfl, rfl⟩

/-- C10: a `date` placeholder with two arguments whose second argument is
not a string literal does not fail on account of that argument: it is
silently ignored and the date filter carries no target timezone. -/
theorem date_non_string_second_argument_ignored (n : Nat) (v : Value)
    (hv : ∀ s, v ≠ Value.bytes s) (path : Str) :
    ∃ c, resolve_grok_pattern (n + 2)
        ⟨⟨str "date", some [.arg (.bytes (str "yyyy-MM-dd")), .arg v]⟩,
          some ⟨path, none⟩⟩ (.new []) = some (Except.ok c) ∧
      alookup c.fields (str "grok0") =
        some ⟨path, [GrokFilter.date ⟨str "yyyy-MM-dd", str "yyyy-MM-dd",
          none, none, false⟩]⟩ := by
  cases v with
  | bytes s => exact absurd rfl (hv s)
  | integer i => exact ⟨_, rfl, rfl⟩
  | boolean b => exact ⟨_, rfl, rfl⟩

/-- C10 witness: an integer second argument is ignored. -/
theorem date_non_string_second_argument_ignored_witness :
    ∃ c, resolve_grok_pattern 2
        ⟨⟨str "date", some [.arg (.bytes (str "yyyy-MM-dd")), .arg (.integer 5)]⟩,
          some ⟨str "d", none⟩⟩ (.new []) = some (Except.ok c) ∧
      alookup c.fields (str "grok0") =
        some ⟨str "d", [GrokFilter.date ⟨str "yyyy-MM-dd", str "yyyy-MM-dd",
          none, none, false⟩]⟩ :=
  date_non_string_second_argument_ignored 0 (.integer 5)
    (fun _ h => Value.noConfusion h) (str "d")

/-- C6, counterexample: the claim states that a placeholder with no
destination has its regex contribution wrapped in a non-capturing group
for every matcher kind; for an alias matcher with no destination the
expansion is inlined with no wrapping group at all — compiling `%{al}`
with alias `al → x` contributes exactly `x`. -/
theorem alias_without_destination_not_wrapped :
    parse_grok_rule 10 (str "%{al}") (.new [(str "al", str "x")]) =
      some (Except.ok ⟨str "x", [], [(str "al", str "x")], [], initGrokPatterns⟩) := rfl

/-- C6 (amended): with a destination, every matcher kind (special
matcher, alias, builtin name) is wrapped in a named capture group using
the freshly generated name (`grok0` on a fresh context) bound to the
field; with no destination, a special matcher gets a non-capturing
group, an alias is inlined with no group, and a builtin name gets a
non-capturing group whose content is preceded by a stray literal `>`. -/
theorem resolver_group_wrapping (n : Nat) (path : Str) :
    (∃ c, resolve_grok_pattern (n + 6)
        ⟨⟨str "regex", some [.arg (.bytes (str "x"))]⟩, some ⟨path, none⟩⟩
        (.new [(str "al", str "x")]) = some (Except.ok c) ∧
      c.regex = str "(?P<grok0>x)" ∧
      alookup c.fields (str "grok0") = some ⟨path, []⟩) ∧
    (∃ c, resolve_grok_pattern (n + 6)
        ⟨⟨str "regex", some [.arg (.bytes (str "x"))]⟩, none⟩
        (.new [(str "al", str "x")]) = some (Except.ok c) ∧
      c.regex = str "(?:x)" ∧ c.fields = []) ∧
    (∃ c, resolve_grok_pattern (n + 6)
        ⟨⟨str "al", none⟩, some ⟨path, none⟩⟩
        (.new [(str "al", str "x")]) = some (Except.ok c) ∧
      c.regex = str "(?P<grok0>x)" ∧
      alookup c.fields (str "grok0") = some ⟨path, []⟩) ∧
    (∃ c, resolve_grok_pattern (n + 6)
        ⟨⟨str "al", none⟩, none⟩
        (.new [(str "al", str "x")]) = some (Except.ok c) ∧
      c.regex = str "x" ∧ c.fields = []) ∧
    (∃ c, resolve_grok_pattern (n + 6)
        ⟨⟨str "word", none⟩, some ⟨path, none⟩⟩
        (.new [(str "al", str "x")]) = some (Except.ok c) ∧
      c.regex = str "(?P<grok0>[a-zA-Z0-9_]+)" ∧
      alookup c.fields (str "grok0") = some ⟨path, []⟩) ∧
    (∃ c, resolve_grok_pattern (n + 6)
        ⟨⟨str "word", none⟩, none⟩
        (.new [(str "al", str "x")]) = some (Except.ok c) ∧
      c.regex = str "(?:>[a-zA-Z0-9_]+)" ∧ c.fields = []) :=
  ⟨⟨_, rfl, rfl, rfl⟩, ⟨_, rfl, rfl, rfl⟩, ⟨_, rfl, rfl, rfl⟩,
   ⟨_, rfl, rfl, rfl⟩, ⟨_, rfl, rfl, rfl⟩, ⟨_, rfl, rfl, rfl⟩⟩

/-- C5, counterexample: the claim states that a placeholder whose matcher
name is unknown never makes compilation of the enclosing pattern fail;
the enclosing pattern can still fail for other reasons — here the
literal text `(` makes the final composed regex invalid even though the
only placeholder has the unknown matcher name `zzz`. -/
theorem unknown_matcher_enclosing_pattern_error :
    parse_pattern 10 (str "(%{zzz}") (.new []) =
      some (Except.error (.InvalidGrokExpression (str "\\A((?:>TODO)\\z")
        (str "invalid regex"))) := rfl

/-- C5 (amended): a placeholder whose matcher name is not special, not
an alias and not a builtin resolves without error: the literal fragment
`TODO` is substituted (inside the group syntax of the pure-grok branch)
and resolution proceeds; the enclosing pattern can still fail for
unrelated reasons (e.g. invalid literal regex text), as the
counterexample shows. -/
theorem unknown_matcher_resolves_to_placeholder (n : Nat) (name : Str)
    (args : Option (List FunctionArgument)) (ctx : GrokRuleParseContext)
    (path : Str)
    (hA : alookup ctx.aliases name = none)
    (hG : alookup ctx.grok name = none)
    (h1 : name ≠ str "regex") (h2 : name ≠ str "date") (h3 : name ≠ str "boolean")
    (h4 : name ≠ str "integer") (h5 : name ≠ str "integerExt")
    (h6 : name ≠ str "number") (h7 : name ≠ str "numberExt") :
    (∃ c, resolve_grok_pattern (n + 3) ⟨⟨name, args⟩, none⟩ ctx =
        some (Except.ok c) ∧ c.regex = ctx.regex ++ str "(?:>TODO)" ∧
        c.fields = ctx.fields) ∧
    (∃ c, resolve_grok_pattern (n + 3) ⟨⟨name, args⟩, some ⟨path, none⟩⟩ ctx =
        some (Except.ok c)) := by
  constructor
  · simp only [resolve_grok_pattern, resolves_match_function, append_grok_pattern,
      GrokRuleParseContext.append_regex, Option.map_none', Option.map_some',
      hA, hG, h1, h2, h3, h4, h5, h6, h7,
      if_neg, ite_false, or_self, or_false, false_or, if_false]
    exact ⟨_, rfl, by (simp only [List.append_assoc]; rfl), rfl⟩
  · simp only [resolve_grok_pattern, resolves_match_function, append_grok_pattern,
      GrokRuleParseContext.append_regex, GrokRuleParseContext.register_grok_field,
      Option.map_none', Option.map_some',
      hA, hG, h1, h2, h3, h4, h5, h6, h7,
      if_neg, ite_false, or_self, or_false, false_or, if_false]
    exact ⟨_, rfl⟩

/-- C5 witness: an unknown matcher `zzz` resolves to the `TODO`
fragment with no error. -/
theorem unknown_matcher_resolves_to_placeholder_witness :
    (∃ c, resolve_grok_pattern 3 ⟨⟨str "zzz", none⟩, none⟩ (.new []) =
        some (Except.ok c) ∧
        c.regex = (GrokRuleParseContext.new []).regex ++ str "(?:>TODO)" ∧
        c.fields = (GrokRuleParseContext.new []).fields) ∧
    (∃ c, resolve_grok_pattern 3 ⟨⟨str "zzz", none⟩, some ⟨str "p", none⟩⟩
        (.new []) = some (Except.ok c)) :=
  unknown_matcher_resolves_to_placeholder 0 (str "zzz") none (.new []) (str "p")
    rfl rfl (by decide) (by decide) (by decide) (by decide) (by decide)
    (by decide) (by decide)

/-- C4: for each coercion matcher (`integer`, `integerExt`, `number`,
`numberExt`, `date`) combined with any explicit filter the author
declares, the compiled field's filter chain holds the implicit filter
first and the explicit filter after it. -/
theorem implicit_filter_precedes_explicit (n : Nat) (path : Str) (f : Function)
    (gf : GrokFilter) (h : GrokFilter.tryFrom f = Except.ok gf) :
    (∃ c, resolve_grok_pattern (n + 6) ⟨⟨str "integer", none⟩, some ⟨path, some f⟩⟩
        (.new []) = some (Except.ok c) ∧
      alookup c.fields (str "grok0") = some ⟨path, [GrokFilter.integer, gf]⟩) ∧
    (∃ c, resolve_grok_pattern (n + 6) ⟨⟨str "integerExt", none⟩, some ⟨path, some f⟩⟩
        (.new []) = some (Except.ok c) ∧
      alookup c.fields (str "grok0") = some ⟨path, [GrokFilter.integerExt, gf]⟩) ∧
    (∃ c, resolve_grok_pattern (n + 6) ⟨⟨str "number", none⟩, some ⟨path, some f⟩⟩
        (.new []) = some (Except.ok c) ∧
      alookup c.fields (str "grok0") = some ⟨path, [GrokFilter.number, gf]⟩) ∧
    (∃ c, resolve_grok_pattern (n + 6) ⟨⟨str "numberExt", none⟩, some ⟨path, some f⟩⟩
        (.new []) = some (Except.ok c) ∧
      alookup c.fields (str "grok0") = some ⟨path, [GrokFilter.numberExt, gf]⟩) ∧
    (∃ c, resolve_grok_pattern (n + 6)
        ⟨⟨str "date", some [.arg (.bytes (str "yyyy-MM-dd"))]⟩, some ⟨path, some f⟩⟩
        (.new []) = some (Except.ok c) ∧
      alookup c.fields (str "grok0") = some ⟨path,
        [GrokFilter.date ⟨str "yyyy-MM-dd", str "yyyy-MM-dd", none, none, false⟩,
          gf]⟩) := by
  refine ⟨?_, ?_, ?_, ?_, ?_⟩ <;>
    (simp only [resolve_grok_pattern]; rw [h]; exact ⟨_, rfl, rfl⟩)

/-- C4 witness: `%{number:p:scale(10)}`-style input yields the chain
`[number, scale 10]`. -/
theorem implicit_filter_precedes_explicit_witness :
    ∃ c, resolve_grok_pattern 6
        ⟨⟨str "number", none⟩,
          some ⟨str "p", some ⟨str "scale", some [.arg (.integer 10)]⟩⟩⟩
        (.new []) = some (Except.ok c) ∧
      alookup c.fields (str "grok0") =
        some ⟨str "p", [GrokFilter.number, GrokFilter.scale 10]⟩ :=
  (implicit_filter_precedes_explicit 0 (str "p")
    ⟨str "scale", some [.arg (.integer 10)]⟩ (.scale 10) rfl).2.2.1

/-- Helper: a pattern that is exactly one placeholder referencing a known
alias compiles to that alias expansion; errors from the expansion
propagate. -/
theorem pgr_ph_prop (f : Nat) (ph nm df : Str) (ctx : GrokRuleParseContext)
    (e : Error)
    (hs : scanGrok ph = [Tok.ph ph])
    (hp : parse_grok_pattern ph = Except.ok ⟨⟨nm, none⟩, none⟩)
    (hA : alookup ctx.aliases nm = some df)
    (hrec : parse_alias f nm df ctx = some (Except.error e)) :
    parse_grok_rule (f + 3) ph ctx = some (Except.error e) := by
  show parse_tokens (f + 2) (scanGrok ph) ctx = some (Except.error e)
  rw [hs]
  simp only [parse_tokens, hp, resolve_grok_pattern, hA, Option.map_none']
  rw [hrec]

/-- Helper: expanding an alias not on the stack pushes it and recurses;
errors from the recursion propagate. -/
theorem parse_alias_prop (f : Nat) (nm df : Str) (ctx : GrokRuleParseContext)
    (e : Error)
    (hno : ctx.alias_stack.any (fun a => decide (a = nm)) = false)
    (hrec : parse_grok_rule f df
        { ctx with alias_stack := ctx.alias_stack ++ [nm] } =
      some (Except.error e)) :
    parse_alias (f + 1) nm df ctx = some (Except.error e) := by
  simp only [parse_alias, hno]
  rw [hrec]
  rfl

/-- Helper: expanding an alias already on the stack fails, naming the
first stack entry. -/
theorem parse_alias_hit (f : Nat) (nm df : Str) (ctx : GrokRuleParseContext)
    (hyes : ctx.alias_stack.any (fun a => decide (a = nm)) = true) :
    parse_alias (f + 1) nm df ctx =
      some (Except.error (.CircularDependencyInAliasDefinition
        (ctx.alias_stack.headD nm))) := by
  simp only [parse_alias, hyes, if_true]

/-- Helper: a rule-parse error propagates through `parse_pattern`. -/
theorem parse_pattern_prop (f : Nat) (s : Str) (ctx : GrokRuleParseContext)
    (e : Error) (h : parse_grok_rule f s ctx = some (Except.error e)) :
    parse_pattern f s ctx = some (Except.error e) := by
  simp only [parse_pattern, h]

/-- C3: with aliases `a → %{b}` and `b → %{a}` in the table, compiling a
pattern referencing either alias fails with
`CircularDependencyInAliasDefinition` at every sufficient recursion
budget (the cycle guard cuts the recursion); the error names the entry
alias — the first entry on the expansion stack — not the
immediately-repeated name. -/
theorem circular_aliases_always_fail (n : Nat) (m : List (Str × Str))
    (hA : alookup m (str "a") = some (str "%{b}"))
    (hB : alookup m (str "b") = some (str "%{a}")) :
    parse_pattern (n + 12) (str "%{a}") (.new m) =
      some (Except.error (.CircularDependencyInAliasDefinition (str "a"))) ∧
    parse_pattern (n + 12) (str "%{b}") (.new m) =
      some (Except.error (.CircularDependencyInAliasDefinition (str "b"))) := by
  constructor
  · have h1 : parse_alias (n + 1) (str "a") (str "%{b}")
        ⟨[], [], m, [str "a", str "b"], initGrokPatterns⟩ =
        some (Except.error (.CircularDependencyInAliasDefinition (str "a"))) :=
      parse_alias_hit n (str "a") (str "%{b}") _ rfl
    have h2 : parse_grok_rule (n + 4) (str "%{a}")
        ⟨[], [], m, [str "a", str "b"], initGrokPatterns⟩ =
        some (Except.error (.CircularDependencyInAliasDefinition (str "a"))) :=
      pgr_ph_prop (n + 1) _ _ _ _ _ rfl rfl hA h1
    have h3 : parse_alias (n + 5) (str "b") (str "%{a}")
        ⟨[], [], m, [str "a"], initGrokPatterns⟩ =
        some (Except.error (.CircularDependencyInAliasDefinition (str "a"))) :=
      parse_alias_prop (n + 4) _ _ _ _ rfl h2
    have h4 : parse_grok_rule (n + 8) (str "%{b}")
        ⟨[], [], m, [str "a"], initGrokPatterns⟩ =
        some (Except.error (.CircularDependencyInAliasDefinition (str "a"))) :=
      pgr_ph_prop (n + 5) _ _ _ _ _ rfl rfl hB h3
    have h5 : parse_alias (n + 9) (str "a") (str "%{b}")
        ⟨[], [], m, [], initGrokPatterns⟩ =
        some (Except.error (.CircularDependencyInAliasDefinition (str "a"))) :=
      parse_alias_prop (n + 8) _ _ _ _ rfl h4
    have h6 : parse_grok_rule (n + 12) (str "%{a}")
        ⟨[], [], m, [], initGrokPatterns⟩ =
        some (Except.error (.CircularDependencyInAliasDefinition (str "a"))) :=
      pgr_ph_prop (n + 9) _ _ _ _ _ rfl rfl hA h5
    exact parse_pattern_prop _ _ _ _ h6
  · have h1 : parse_alias (n + 1) (str "b") (str "%{a}")
        ⟨[], [], m, [str "b", str "a"], initGrokPatterns⟩ =
        some (Except.error (.CircularDependencyInAliasDefinition (str "b"))) :=
      parse_alias_hit n (str "b") (str "%{a}") _ rfl
    have h2 : parse_grok_rule (n + 4) (str "%{b}")
        ⟨[], [], m, [str "b", str "a"], initGrokPatterns⟩ =
        some (Except.error (.CircularDependencyInAliasDefinition (str "b"))) :=
      pgr_ph_prop (n + 1) _ _ _ _ _ rfl rfl hB h1
    have h3 : parse_alias (n + 5) (str "a") (str "%{b}")
        ⟨[], [], m, [str "b"], initGrokPatterns⟩ =
        some (Except.error (.CircularDependencyInAliasDefinition (str "b"))) :=
      parse_alias_prop (n + 4) _ _ _ _ rfl h2
    have h4 : parse_grok_rule (n + 8) (str "%{a}")
        ⟨[], [], m, [str "b"], initGrokPatterns⟩ =
        some (Except.error (.CircularDependencyInAliasDefinition (str "b"))) :=
      pgr_ph_prop (n + 5) _ _ _ _ _ rfl rfl hA h3
    have h5 : parse_alias (n + 9) (str "b") (str "%{a}")
        ⟨[], [], m, [], initGrokPatterns⟩ =
        some (Except.error (.CircularDependencyInAliasDefinition (str "b"))) :=
      parse_alias_prop (n + 8) _ _ _ _ rfl h4
    have h6 : parse_grok_rule (n + 12) (str "%{b}")
        ⟨[], [], m, [], initGrokPatterns⟩ =
        some (Except.error (.CircularDependencyInAliasDefinition (str "b"))) :=
      pgr_ph_prop (n + 9) _ _ _ _ _ rfl rfl hB h5
    exact parse_pattern_prop _ _ _ _ h6

/-- C3 witness: the two-entry table, entry through `a`. -/
theorem circular_aliases_always_fail_witness :
    parse_pattern 12 (str "%{a}")
        (.new [(str "a", str "%{b}"), (str "b", str "%{a}")]) =
      some (Except.error (.CircularDependencyInAliasDefinition (str "a"))) ∧
    parse_pattern 12 (str "%{b}")
        (.new [(str "a", str "%{b}"), (str "b", str "%{a}")]) =
      some (Except.error (.CircularDependencyInAliasDefinition (str "b"))) :=
  circular_aliases_always_fail 0 [(str "a", str "%{b}"), (str "b", str "%{a}")]
    rfl rfl

set_option maxHeartbeats 2000000 in
/-- The sentinel compiles, on any fresh context and any sufficient fuel,
to the literal rule with no fields. -/
theorem sentinel_ok (k : Nat) (aliases : List (Str × Str)) :
    parse_pattern (k + 3) sentinelStr (.new aliases) =
      some (Except.ok ⟨litRE sentinelStr, []⟩) := rfl

/-- Helper: `compileOne` never yields an error, given the sentinel's
behavior at this fuel. -/
theorem compileOne_never_error_aux (fuel : Nat) (aliases : List (Str × Str))
    (r : Str)
    (hsent : parse_pattern fuel sentinelStr (.new aliases) = none ∨
      parse_pattern fuel sentinelStr (.new aliases) =
        some (Except.ok ⟨litRE sentinelStr, []⟩))
    (e : Error) : compileOne fuel aliases r ≠ some (Except.error e) := by
  intro h
  unfold compileOne at h
  cases hp : parse_pattern fuel r (.new aliases) with
  | none => rw [hp] at h; simp at h
  | some res =>
    cases res with
    | ok rule => rw [hp] at h; simp at h
    | error e' =>
      rw [hp] at h
      rcases hsent with hs | hs <;> rw [hs] at h <;> simp at h

set_option maxHeartbeats 2000000 in
/-- Helper: the sentinel compiles (or runs out of fuel) at every fuel, so
`compileOne` never yields an error. -/
theorem compileOne_never_error (fuel : Nat) (aliases : List (Str × Str))
    (r : Str) (e : Error) : compileOne fuel aliases r ≠ some (Except.error e) := by
  rcases fuel with _ | _ | _ | k
  · exact compileOne_never_error_aux 0 aliases r (Or.inl rfl) e
  · exact compileOne_never_error_aux 1 aliases r (Or.inl rfl) e
  · exact compileOne_never_error_aux 2 aliases r (Or.inr rfl) e
  · exact compileOne_never_error_aux (k + 3) aliases r (Or.inr (sentinel_ok k aliases)) e

/-- Helper: the collected batch never yields an error. -/
theorem collectRules_never_error (fuel : Nat) (aliases : List (Str × Str)) :
    ∀ (l : List Str) (e : Error),
      collectRules fuel aliases l ≠ some (Except.error e) := by
  intro l
  induction l with
  | nil => intro e h; simp [collectRules] at h
  | cons p ps ih =>
    intro e h
    unfold collectRules at h
    cases hc : compileOne fuel aliases p with
    | none => rw [hc] at h; simp at h
    | some res =>
      cases res with
      | error e' => exact compileOne_never_error fuel aliases p e' hc
      | ok r =>
        rw [hc] at h
        cases hcol : collectRules fuel aliases ps with
        | none => rw [hcol] at h; simp at h
        | some res2 =>
          cases res2 with
          | ok rs => rw [hcol] at h; simp at h
          | error e2 => exact ih e2 hcol

/-- Helper: a successful batch has one rule per input, in order, each the
result of `compileOne` on the corresponding input. -/
theorem collectRules_spec (fuel : Nat) (aliases : List (Str × Str)) :
    ∀ (l : List Str) (rules : List GrokRule),
      collectRules fuel aliases l = some (Except.ok rules) →
      rules.length = l.length ∧
      ∀ i (h1 : i < rules.length) (h2 : i < l.length),
        ∃ r, compileOne fuel aliases (l.get ⟨i, h2⟩) = some (Except.ok r) ∧
          rules.get ⟨i, h1⟩ = r := by
  intro l
  induction l with
  | nil =>
    intro rules h
    simp only [collectRules, Option.some.injEq, Except.ok.injEq] at h
    subst h
    exact ⟨rfl, fun i h1 h2 => absurd h2 (Nat.not_lt_zero i)⟩
  | cons p ps ih =>
    intro rules h
    unfold collectRules at h
    cases hc : compileOne fuel aliases p with
    | none => rw [hc] at h; simp at h
    | some res =>
      cases res with
      | error e => rw [hc] at h; simp at h
      | ok r =>
        rw [hc] at h
        cases hcol : collectRules fuel aliases ps with
        | none => rw [hcol] at h; simp at h
        | some res2 =>
          cases res2 with
          | error e2 => rw [hcol] at h; simp at h
          | ok rs =>
            rw [hcol] at h
            simp only [Option.some.injEq, Except.ok.injEq] at h
            subst h
            obtain ⟨hlen, hcorr⟩ := ih rs hcol
            refine ⟨by simp [hlen], fun i h1 h2 => ?_⟩
            cases i with
            | zero => exact ⟨r, hc, rfl⟩
            | succ j =>
              obtain ⟨r', hr', hget⟩ := hcorr j (by simpa using h1) (by simpa using h2)
              exact ⟨r', hr', hget⟩

/-- C2: a successful batch yields exactly one compiled rule per
non-empty input pattern, in the same relative order (slot `i` of the
output is `compileOne` of the `i`-th non-empty input); empty entries
yield no rule. -/
theorem batch_order_and_length (fuel : Nat) (patterns : List Str)
    (aliases : List (Str × Str)) (rules : List GrokRule)
    (h : parse_grok_rules fuel patterns aliases = some (Except.ok rules)) :
    rules.length = (patterns.filter (fun r => !r.isEmpty)).length ∧
    ∀ i (h1 : i < rules.length)
      (h2 : i < (patterns.filter (fun r => !r.isEmpty)).length),
      ∃ r, compileOne fuel aliases
          ((patterns.filter (fun r => !r.isEmpty)).get ⟨i, h2⟩) =
        some (Except.ok r) ∧ rules.get ⟨i, h1⟩ = r :=
  collectRules_spec fuel aliases _ rules h

/-- C2 witness: two non-empty inputs among three yield two rules. -/
theorem batch_order_and_length_witness :
    ([⟨litRE (str "x"), []⟩, ⟨litRE (str "y"), []⟩] : List GrokRule).length =
      (([str "x", str "", str "y"]).filter (fun r => !r.isEmpty)).length :=
  (batch_order_and_length 3 [str "x", str "", str "y"] []
    [⟨litRE (str "x"), []⟩, ⟨litRE (str "y"), []⟩] rfl).1

set_option maxHeartbeats 2000000 in
/-- C1: the batch operation never returns an error — any per-pattern
error is caught and that slot is filled by compiling the fixed sentinel
pattern with the same machinery (each pattern is compiled on a fresh
context, so other patterns are unaffected; see the per-slot account in
the successful-batch theorem). -/
theorem batch_never_errors_and_substitutes (fuel : Nat) (patterns : List Str)
    (aliases : List (Str × Str)) :
    (∀ e, parse_grok_rules fuel patterns aliases ≠ some (Except.error e)) ∧
    (∀ r e, parse_pattern fuel r (.new aliases) = some (Except.error e) →
      compileOne fuel aliases r = some (Except.ok ⟨litRE sentinelStr, []⟩)) := by
  constructor
  · intro e; exact collectRules_never_error fuel aliases _ e
  · intro r e h
    rcases fuel with _ | _ | _ | k
    · rw [show parse_pattern 0 r (.new aliases) = none from rfl] at h
      exact Option.noConfusion h
    · exfalso
      cases hs : scanGrok r with
      | nil =>
        have hok : parse_pattern 1 r (.new aliases) =
            some (Except.ok ⟨.eps, []⟩) := by
          simp only [parse_pattern, parse_grok_rule, hs]
          rfl
        rw [hok] at h; simp at h
      | cons t ts =>
        have hnone : parse_pattern 1 r (.new aliases) = none := by
          simp only [parse_pattern, parse_grok_rule, hs]
          cases t <;> rfl
        rw [hnone] at h; exact Option.noConfusion h
    · unfold compileOne
      rw [h]
      rw [show parse_pattern 2 sentinelStr (.new aliases) =
        some (Except.ok ⟨litRE sentinelStr, []⟩) from rfl]
    · unfold compileOne
      rw [h, sentinel_ok k aliases]

/-- C1 witness: `%{regex("(")}` fails to compile and its slot is filled
by the compiled sentinel rule. -/
theorem batch_never_errors_and_substitutes_witness :
    compileOne 10 [] (str "%\x7bregex(\"(\")\x7d") =
      some (Except.ok ⟨litRE sentinelStr, []⟩) :=
  (batch_never_errors_and_substitutes 10 [] []).2 (str "%\x7bregex(\"(\")\x7d")
    (.InvalidGrokExpression (str "\\A(?:()\\z") (str "invalid regex")) rfl

/-! ## Literal patterns (C7) -/

/-- A character that is literal both for the token scanner and for the
regex engine: no regex metacharacter, no `%`, `{` or `}`. -/
def isSafeLit (c : Char) : Bool :=
  !reMeta c && !(c == '%') && !(c == '{') && !(c == '}')

/-- Unpack `isSafeLit` into the individual disequalities. -/
theorem safe_not (c : Char) (h : isSafeLit c = true) :
    c ≠ '\\' ∧ c ≠ '(' ∧ c ≠ ')' ∧ c ≠ '[' ∧ c ≠ ']' ∧ c ≠ '*' ∧ c ≠ '+' ∧
    c ≠ '?' ∧ c ≠ '.' ∧ c ≠ '|' ∧ c ≠ '^' ∧ c ≠ '$' ∧ c ≠ '%' ∧ c ≠ '{' ∧
    c ≠ '}' := by
  refine ⟨?_, ?_, ?_, ?_, ?_, ?_, ?_, ?_, ?_, ?_, ?_, ?_, ?_, ?_, ?_⟩ <;>
    (intro hc; subst hc; exact absurd h (by decide))

/-- `reStop` is false on safe characters. -/
theorem reStop_safe (c : Char) (h : isSafeLit c = true) : reStop c = false := by
  obtain ⟨_, _, h3, _, _, _, _, _, _, h10, _⟩ := safe_not c h
  simp [reStop, h3, h10]

/-- `reMeta` is false on safe characters. -/
theorem reMeta_safe (c : Char) (h : isSafeLit c = true) : reMeta c = false := by
  simp only [isSafeLit, Bool.and_eq_true, Bool.not_eq_true'] at h
  exact h.1.1.1

/-- The scanner yields a single literal token on placeholder-free text. -/
theorem scanGo_literal (s : Str) : ∀ (fuel : Nat) (acc : Str),
    (∀ c ∈ s, c ≠ '%') → s.length < fuel →
    scanGo fuel s acc =
      if (acc.reverse ++ s).isEmpty then [] else [.lit (acc.reverse ++ s)] := by
  induction s with
  | nil =>
    intro fuel acc _ hf
    rcases fuel with _ | f
    · omega
    · cases acc <;> simp [scanGo]
  | cons c rest ih =>
    intro fuel acc h hf
    rcases fuel with _ | f
    · omega
    · have hc : ¬ c = '%' := h c (List.mem_cons_self c rest)
      simp only [scanGo, if_neg hc]
      rw [ih f (c :: acc) (fun x hx => h x (List.mem_cons_of_mem c hx))
        (by simpa using Nat.lt_of_succ_lt_succ hf)]
      have hl : (c :: acc).reverse ++ rest = acc.reverse ++ (c :: rest) := by
        simp
      rw [hl]

/-- Tokenizing placeholder-free text. -/
theorem scanGrok_literal (s : Str) (h : ∀ c ∈ s, c ≠ '%') :
    scanGrok s = if s.isEmpty then [] else [Tok.lit s] := by
  unfold scanGrok
  rw [scanGo_literal s (s.length + 1) [] h (Nat.lt_succ_self _)]
  simp

/-- Postfix operators do not fire on safe text. -/
theorem applyRep_safe (r : RE) (s : Str)
    (hs : ∀ c ∈ s, isSafeLit c = true) : applyRep r s = (r, s) := by
  cases s with
  | nil => rfl
  | cons c rest =>
    obtain ⟨_, _, _, _, _, h6, h7, h8, _⟩ :=
      safe_not c (hs c (List.mem_cons_self c rest))
    simp [applyRep, h6, h7, h8]

/-- A safe character parses as a literal atom. -/
theorem parseAtom_safe (f : Nat) (c : Char) (rest : Str)
    (h : isSafeLit c = true) : parseAtom (f + 1) (c :: rest) = some (.ch c, rest) := by
  obtain ⟨h1, h2, _, h4, _, _, _, _, h9, _⟩ := safe_not c h
  simp [parseAtom, h1, h2, h4, h9, reMeta_safe c h]

/-- A safe string parses as the literal concatenation. -/
theorem parseCat_safe (s : Str) : ∀ (fuel : Nat),
    (∀ c ∈ s, isSafeLit c = true) → 3 * s.length < fuel →
    parseCat fuel s = some (litRE s, []) := by
  induction s with
  | nil =>
    intro fuel _ hf
    rcases fuel with _ | f
    · omega
    · rfl
  | cons c rest ih =>
    intro fuel hs hf
    simp only [List.length_cons] at hf
    rcases fuel with _ | _ | _ | f
    · omega
    · omega
    · omega
    · have hc := hs c (List.mem_cons_self c rest)
      have hrest : ∀ x ∈ rest, isSafeLit x = true :=
        fun x hx => hs x (List.mem_cons_of_mem c hx)
      simp only [parseCat, reStop_safe c hc, Bool.false_eq_true, if_false,
        parseRep, parseAtom_safe f c rest hc, applyRep_safe (.ch c) rest hrest]
      rw [ih (f + 2) hrest (by omega)]
      rfl

/-- A safe string parses as the literal regex at the alternation level. -/
theorem parseAlt_safe (s : Str) (fuel : Nat)
    (hs : ∀ c ∈ s, isSafeLit c = true) (hf : 3 * s.length + 1 < fuel) :
    parseAlt fuel s = some (litRE s, []) := by
  rcases fuel with _ | f
  · omega
  · simp only [parseAlt]
    rw [parseCat_safe s f hs (by omega)]

/-- A safe string parses as the literal regex. -/
theorem regexParse_safe (s : Str) (hs : ∀ c ∈ s, isSafeLit c = true) :
    regexParse s = some (litRE s) := by
  unfold regexParse reFuel
  rw [parseAlt_safe s (4 * s.length + 4) hs (by omega)]

/-- The modelled engine compiles the anchored safe literal to `litRE`. -/
theorem RegexNew_safe (s : Str) (hs : ∀ c ∈ s, isSafeLit c = true) :
    RegexNew (str "\\A" ++ s ++ str "\\z") = Except.ok (litRE s) := by
  have hshape : str "\\A" ++ s ++ str "\\z" =
      '\\' :: 'A' :: (s ++ ['\\', 'z']) := by simp [str]
  rw [hshape]
  unfold RegexNew
  have htake : ('\\' :: 'A' :: (s ++ ['\\', 'z'])).take 2 = ['\\', 'A'] := rfl
  have hdrop2 : ('\\' :: 'A' :: (s ++ ['\\', 'z'])).drop 2 = s ++ ['\\', 'z'] := rfl
  have hlen : (s ++ ['\\', 'z']).length - 2 = s.length := by simp
  simp only [htake, hdrop2, hlen, List.drop_left, List.take_left]
  rw [if_pos ⟨trivial, by simp, trivial⟩, regexParse_safe s hs]

/-- `str::replace` is the identity when the text contains no `(`. -/
theorem replaceAllGo_no_paren (pt repl cs : Str) (h : '(' ∉ cs) :
    ∀ fuel, replaceAllGo fuel ('(' :: pt) repl cs = cs := by
  induction cs with
  | nil => intro fuel; cases fuel <;> rfl
  | cons c rest ih =>
    intro fuel
    cases fuel with
    | zero => rfl
    | succ n =>
      have hc : c ≠ '(' := fun hcp => h (hcp ▸ List.mem_cons_self c rest)
      simp only [replaceAllGo]
      rw [if_neg]
      · rw [ih (fun hm => h (List.mem_cons_of_mem c hm)) n]
      · rintro ⟨-, hpre⟩
        simp only [List.isPrefixOf, Bool.and_eq_true, beq_iff_eq] at hpre
        exact hc hpre.1.symm

/-- The dialect-modifier substitutions are the identity when the text
contains no `(`. -/
theorem replaceAll_modifier (cs : Str) (h : '(' ∉ cs) :
    replaceAll (replaceAll cs (str "(?s)") (str "(?m)"))
      (str "(?-s)") (str "(?-m)") = cs := by
  have h1 : replaceAll cs (str "(?s)") (str "(?m)") = cs :=
    replaceAllGo_no_paren (str "?s)") (str "(?m)") cs h (cs.length + 1)
  rw [h1]
  exact replaceAllGo_no_paren (str "?-s)") (str "(?-m)") cs h (cs.length + 1)

/-- Matching `fail` always fails. -/
theorem rmatch_fail : ∀ t : Str, RE.rmatch .fail t = false := by
  intro t
  induction t with
  | nil => rfl
  | cons x rest ih => exact ih

/-- A concatenation headed by `fail` matches nothing. -/
theorem rmatch_catfail : ∀ (t : Str) (r : RE), RE.rmatch (.cat .fail r) t = false := by
  intro t
  induction t with
  | nil => intro r; rfl
  | cons x rest ih => intro r; exact ih r

/-- The `fail`-headed branch of an alternation is inert. -/
theorem rmatch_alt_catfail : ∀ (t : Str) (r r' : RE),
    RE.rmatch (.alt (.cat .fail r) r') t = RE.rmatch r' t := by
  intro t
  induction t with
  | nil => intro r r'; rfl
  | cons x rest ih => intro r r'; exact ih r (RE.deriv r' x)

/-- An `eps`-headed concatenation matches like its tail. -/
theorem rmatch_cateps : ∀ (t : Str) (r : RE),
    RE.rmatch (.cat .eps r) t = RE.rmatch r t := by
  intro t r
  cases t with
  | nil => rfl
  | cons x rest => exact rmatch_alt_catfail rest r (RE.deriv r x)

/-- The literal regex of a string matches exactly that string. -/
theorem litRE_rmatch (s : Str) : ∀ t : Str, RE.rmatch (litRE s) t = true ↔ t = s := by
  induction s with
  | nil =>
    intro t
    cases t with
    | nil => simp [RE.rmatch, RE.nullable, litRE]
    | cons x rest =>
      have : RE.rmatch (litRE []) (x :: rest) = false := rmatch_fail rest
      simp [this]
  | cons c s' ih =>
    intro t
    cases t with
    | nil => simp [RE.rmatch, RE.nullable, litRE]
    | cons x rest =>
      have hstep : RE.rmatch (litRE (c :: s')) (x :: rest) =
          RE.rmatch (.cat (if x = c then .eps else .fail) (litRE s')) rest := rfl
      by_cases hx : x = c
      · rw [hstep, if_pos hx, rmatch_cateps, ih rest]
        simp [hx]
      · rw [hstep, if_neg hx, rmatch_catfail]
        simp [hx]

/-- C7, counterexample: the claim states that every placeholder-free
pattern compiles to a regex matching only the literal text; literal text
is passed to the engine verbatim and unescaped, so `a*` compiles to a
star that also matches `aa` (which differs from the literal `a*`). -/
theorem star_literal_counterexample :
    parse_pattern 10 (str "a*") (.new []) =
      some (Except.ok ⟨.cat (.star (.ch 'a')) .eps, []⟩) ∧
    RE.rmatch (.cat (.star (.ch 'a')) .eps) (str "aa") = true ∧
    str "aa" ≠ str "a*" := ⟨rfl, rfl, by decide⟩

/-- C7 (amended): a pattern containing no placeholders and consisting
only of characters with no special meaning (no regex metacharacter, no
`%`, `{`, `}`) compiles to the literal regex, anchored at both ends,
which matches exactly the texts equal to the pattern; in general literal
text reaches the engine verbatim and unescaped, so metacharacters keep
their regex meaning (see the counterexample). -/
theorem literal_pattern_matches_exactly (s : Str) (aliases : List (Str × Str))
    (hs : ∀ c ∈ s, isSafeLit c = true) (k : Nat) :
    parse_pattern (k + 3) s (.new aliases) = some (Except.ok ⟨litRE s, []⟩) ∧
    ∀ t, RE.rmatch (litRE s) t = true ↔ t = s := by
  refine ⟨?_, litRE_rmatch s⟩
  have hnp : ∀ c ∈ s, c ≠ '%' := fun c hc => (safe_not c (hs c hc)).2.2.2.2.2.2.2.2.2.2.2.2.1
  have hpar : '(' ∉ s := fun hmem => (safe_not '(' (hs '(' hmem)).2.1 rfl
  have hscan := scanGrok_literal s hnp
  have hpgr : parse_grok_rule (k + 3) s (GrokRuleParseContext.new aliases) =
      some (Except.ok ⟨s, [], aliases, [], initGrokPatterns⟩) := by
    show parse_tokens (k + 2) (scanGrok s) (GrokRuleParseContext.new aliases) = _
    rw [hscan]
    cases s with
    | nil => rfl
    | cons c rest => rfl
  have hmem : '(' ∉ str "\\A" ++ s ++ str "\\z" := by
    intro hm
    rcases List.mem_append.1 hm with hm1 | hm2
    · rcases List.mem_append.1 hm1 with hm3 | hm4
      · exact absurd hm3 (by decide)
      · exact hpar hm4
    · exact absurd hm2 (by decide)
  simp only [parse_pattern, hpgr]
  rw [replaceAll_modifier _ hmem, RegexNew_safe s hs]

/-- C7 witness: the safe literal `abc` compiles to its literal regex. -/
theorem literal_pattern_matches_exactly_witness :
    parse_pattern 3 (str "abc") (.new []) =
      some (Except.ok ⟨litRE (str "abc"), []⟩) ∧
    (RE.rmatch (litRE (str "abc")) (str "abc") = true ↔ str "abc" = str "abc") :=
  ⟨(literal_pattern_matches_exactly (str "abc") [] (by decide) 0).1,
   (literal_pattern_matches_exactly (str "abc") [] (by decide) 0).2 (str "abc")⟩

end Grok
